import Mathlib

set_option maxHeartbeats 1000000

/-!
Formal model of genlm-backend's `genlm/backend/llm/base.py`: the `AsyncLM`
contract (default batch dispatch built from the single-request operations via
`asyncio.gather` and `torch.stack`) and the `MockAsyncLM` reference backend
(deterministic seeded pseudo-random log-probability distributions).

Modelling conventions:
- Machine integers are `Nat` with explicit truncation `% 2^32` where the
  underlying C code works on `uint32` (numpy's Mersenne Twister state).
- `numpy.random.RandomState` is an external library; it is embedded by a
  faithful implementation of its MT19937 bit generator: `seed`, the twist,
  tempering, and the 53-bit double draw of `rand`, whose outputs are exact
  dyadic rationals represented in `ℚ`.  `RandomState.seed` accepts only
  integer seeds below `2^32` and raises
  `ValueError("Seed must be between 0 and 2**32 - 1")` otherwise, before any
  state mutation; this error path is part of the model, so the mock
  operations are fallible (`Except String`).
- A value returned by the backend is represented by `LogProbTensor`, which
  records the exact drawn raw values; the deterministic float pipeline
  (`astype(float32)` followed by `torch.log_softmax`) is a fixed pointwise
  function of those values, so bit-identity of returned tensors corresponds
  to equality of `LogProbTensor` values.  The numeric content of
  `log_softmax` is idealised over `ℝ` by `log_softmax` below.
- Stateful code (`self._rng`) is embedded by explicit state passing: each
  operation takes the `MockAsyncLM` instance and returns, on success, the
  result together with the updated instance; on an error the caller keeps the
  unchanged instance (the raising `seed()` call mutates nothing).  The batch
  operations return the outcome together with the instance as left at the
  point the computation stopped.
-/

/-- Truncation to 32 bits; numpy's MT19937 state words are `uint32`. -/
def mask32 (x : Nat) : Nat := x % 4294967296

/-- Tail of the MT19937 `init_genrand` recurrence:
`mt[i] = mask32 (1812433253 * (mt[i-1] ^^^ (mt[i-1] >>> 30)) + i)`,
producing `k` further state words starting at index `i`. -/
def initGenrandAux : Nat → Nat → Nat → List Nat
  | _, _, 0 => []
  | prev, i, k + 1 =>
      let next := mask32 (1812433253 * (prev ^^^ (prev >>> 30)) + i)
      next :: initGenrandAux next (i + 1) k

/-- `init_genrand`: the 624-word MT19937 state array obtained by seeding with
a 32-bit integer. -/
def init_genrand (s : Nat) : List Nat :=
  mask32 s :: initGenrandAux (mask32 s) 1 623

/-- State of a `numpy.random.RandomState` Mersenne Twister bit generator:
the 624-word array and the read position. -/
structure MTState where
  mt : List Nat
  pos : Nat
deriving DecidableEq

/-- The generator state right after a successful `seed(s)` for `s < 2^32`:
the `init_genrand` array, with the read position set past the end so the next
draw regenerates the block. -/
def mtInit (s : Nat) : MTState :=
  { mt := init_genrand s, pos := 624 }

/-- `RandomState.seed(s)` for an integer `s`: numpy's legacy seeding first
range-checks the integer and raises
`ValueError("Seed must be between 0 and 2**32 - 1")` for `s ≥ 2^32`, before
touching the generator; otherwise it reinitialises the whole state via
`init_genrand`. -/
def mtSeed (s : Nat) : Except String MTState :=
  if s < 4294967296 then Except.ok (mtInit s)
  else Except.error "Seed must be between 0 and 2**32 - 1"

/-- One in-place step of the MT19937 block regeneration. -/
def twistStep (mt : List Nat) (i : Nat) : List Nat :=
  let y := (mt.getD i 0 &&& 2147483648) ||| (mt.getD ((i + 1) % 624) 0 &&& 2147483647)
  mt.set i
    (mask32 (mt.getD ((i + 397) % 624) 0 ^^^ (y >>> 1) ^^^ (if y % 2 = 1 then 2567483615 else 0)))

/-- MT19937 block regeneration over the whole 624-word array. -/
def twist (mt : List Nat) : List Nat :=
  (List.range 624).foldl twistStep mt

/-- MT19937 output tempering. -/
def temper (y : Nat) : Nat :=
  let y1 := y ^^^ (y >>> 11)
  let y2 := y1 ^^^ ((y1 <<< 7) &&& 2636928640)
  let y3 := y2 ^^^ ((y2 <<< 15) &&& 4022730752)
  y3 ^^^ (y3 >>> 18)

/-- Draw one 32-bit word from the Mersenne Twister. -/
def genrand (s : MTState) : Nat × MTState :=
  let mt := if s.pos ≥ 624 then twist s.mt else s.mt
  let p := if s.pos ≥ 624 then 0 else s.pos
  (mask32 (temper (mt.getD p 0)), { mt := mt, pos := p + 1 })

/-- One double-precision uniform draw in `[0,1)` as numpy produces it:
`(a * 2^26 + b) / 2^53` with `a` the top 27 bits of one word and `b` the top
26 bits of the next; the value is an exact dyadic rational. -/
def randomSample (s : MTState) : ℚ × MTState :=
  let p1 := genrand s
  let p2 := genrand p1.2
  let a := p1.1 >>> 5
  let b := p2.1 >>> 6
  (((a * 67108864 + b : Nat) : ℚ) / 9007199254740992, p2.2)

/-- `rng.rand(n)`: `n` successive uniform draws, threading the generator
state. -/
def randN : MTState → Nat → List ℚ × MTState
  | s, 0 => ([], s)
  | s, n + 1 =>
      let p := randomSample s
      let q := randN p.2 n
      (p.1 :: q.1, q.2)

/-- A tensor returned by the mock backend, identified by the exact raw
uniform draws it is the (float32) log-softmax of.  Two returned tensors are
bit-identical exactly when their `LogProbTensor` representations are equal,
since the remaining float pipeline is a fixed deterministic function. -/
structure LogProbTensor where
  logits : List ℚ
deriving DecidableEq

/-- A `MockAsyncLM` instance: `vocabSize` models `len(self.tokenizer)` and
`rng` models the state of the shared `self._rng` generator.  The vocabulary
tables built by `decode_vocab` are read-only collaborator output and play no
role in the operations modelled here. -/
structure MockAsyncLM where
  vocabSize : Nat
  rng : MTState
deriving DecidableEq

/-- `MockAsyncLM.__init__`: the shared generator starts as
`np.random.RandomState(42)`. -/
def MockAsyncLM.init (v : Nat) : MockAsyncLM :=
  { vocabSize := v, rng := mtInit 42 }

/-- `seed = sum([(i + 1) * t for i, t in enumerate(token_ids)])`. -/
def seedOf (ids : List Nat) : Nat :=
  (ids.enum.map (fun p => (p.1 + 1) * p.2)).sum

/-- `MockAsyncLM._get_logprobs`: derive the seed from the token ids, re-seed
the shared generator (numpy raises `ValueError` for seeds of at least `2^32`,
in which case the exception propagates and the generator is untouched), draw
`len(self.tokenizer)` uniforms, and return their log-softmax (represented by
the raw draws) together with the updated instance. -/
def MockAsyncLM.get_logprobs (M : MockAsyncLM) (ids : List Nat) :
    Except String (LogProbTensor × MockAsyncLM) :=
  match mtSeed (seedOf ids) with
  | Except.error e => Except.error e
  | Except.ok s0 =>
      let p := randN s0 M.vocabSize
      Except.ok (⟨p.1⟩, { M with rng := p.2 })

/-- `MockAsyncLM.next_token_logprobs`: the coroutine body contains no
`await`; awaiting it performs exactly the synchronous call to
`_get_logprobs`, including its exceptions. -/
def MockAsyncLM.next_token_logprobs (M : MockAsyncLM) (ids : List Nat) :
    Except String (LogProbTensor × MockAsyncLM) :=
  M.get_logprobs ids

/-- `MockAsyncLM.next_token_logprobs_sync`: direct call to `_get_logprobs`. -/
def MockAsyncLM.next_token_logprobs_sync (M : MockAsyncLM) (ids : List Nat) :
    Except String (LogProbTensor × MockAsyncLM) :=
  M.get_logprobs ids

/-- `torch.stack`: fails on an empty tensor list with a `RuntimeError`,
otherwise the stacked tensor is the list of its rows. -/
def torchStack {α : Type} (ts : List α) : Except String (List α) :=
  if ts.isEmpty then Except.error "stack expects a non-empty TensorList"
  else Except.ok ts

/-- The list comprehension of `AsyncLM.batch_next_token_logprobs_sync`: run
the blocking single-request operation strictly in sequence, threading the
instance state; a raising member stops the comprehension there, propagating
its exception, with the instance left as the preceding successful calls left
it (the raising `seed()` mutates nothing). -/
def runSyncList : MockAsyncLM → List (List Nat) →
    Except String (List LogProbTensor) × MockAsyncLM
  | M, [] => (Except.ok [], M)
  | M, r :: rs =>
      match M.next_token_logprobs_sync r with
      | Except.error e => (Except.error e, M)
      | Except.ok q =>
          let p := runSyncList q.2 rs
          (match p.1 with
           | Except.error e => Except.error e
           | Except.ok ts => Except.ok (q.1 :: ts), p.2)

/-- `AsyncLM.batch_next_token_logprobs_sync` on the mock backend:
`torch.stack([self.next_token_logprobs_sync(ids) for ids in token_ids_list])`;
a member exception propagates before `torch.stack` runs. -/
def MockAsyncLM.batch_next_token_logprobs_sync (M : MockAsyncLM)
    (reqs : List (List Nat)) : Except String (List LogProbTensor) × MockAsyncLM :=
  let p := runSyncList M reqs
  (match p.1 with
   | Except.error e => Except.error e
   | Except.ok ts => torchStack ts, p.2)

/-- Cooperative execution of the fan-out coroutines of
`asyncio.gather(*[self.next_token_logprobs(ids) for ids in token_ids_list])`
under an arbitrary scheduler: `order` lists the indices of the coroutines in
the order in which the event loop runs them (each body is atomic, having no
internal `await`).  Returns the table mapping each source index to its
computed tensor, together with the final instance state.  A raising member
makes the gather propagate that first exception; the remaining members'
effects concern only the generator state, which the contract declares
unobservable, so the model stops the schedule there. -/
def execSchedule : MockAsyncLM → List (List Nat) → List Nat →
    Except String (Nat → Option LogProbTensor) × MockAsyncLM
  | M, _, [] => (Except.ok (fun _ => none), M)
  | M, reqs, i :: rest =>
      match M.get_logprobs (reqs.getD i []) with
      | Except.error e => (Except.error e, M)
      | Except.ok q =>
          let p := execSchedule q.2 reqs rest
          (match p.1 with
           | Except.error e => Except.error e
           | Except.ok tbl => Except.ok (fun j =>
               match tbl j with
               | some t => some t
               | none => if j = i then some q.1 else none), p.2)

/-- `AsyncLM.batch_next_token_logprobs` on the mock backend: gather the
fan-out members executed in scheduler order `order`, reassemble the result
list by source index, and stack it; the first member exception propagates. -/
def MockAsyncLM.batch_next_token_logprobs (M : MockAsyncLM)
    (reqs : List (List Nat)) (order : List Nat) :
    Except String (List LogProbTensor) × MockAsyncLM :=
  let p := execSchedule M reqs order
  (match p.1 with
   | Except.error e => Except.error e
   | Except.ok tbl =>
       torchStack ((List.range reqs.length).map (fun i => (tbl i).getD ⟨[]⟩)),
   p.2)

/-- Idealised real-number semantics of `torch.log_softmax` applied to the raw
draws: subtract the log-sum-exp of the values from each value. -/
noncomputable def log_softmax (l : List ℚ) : List ℝ :=
  l.map (fun x : ℚ => (x : ℝ) - Real.log ((l.map (fun y : ℚ => Real.exp ((y : ℝ)))).sum))

/-- `Except.ok`-ness as a Boolean, so hypotheses about it are decidable. -/
def isOkB {ε α : Type} : Except ε α → Bool
  | Except.ok _ => true
  | Except.error _ => false

/-- Semantics of `asyncio.gather` (`return_exceptions=False`) over the
outcomes of the fan-out members, listed in task-creation order (which is the
order the event loop first runs them): the gathered list if every member
succeeded, otherwise the first raised member error, propagated unchanged. -/
def asyncio_gather {ε α : Type} : List (Except ε α) → Except ε (List α)
  | [] => Except.ok []
  | Except.error e :: _ => Except.error e
  | Except.ok a :: rest => (asyncio_gather rest).map (fun l => a :: l)

/-- The contract layer's `AsyncLM.batch_next_token_logprobs` over an
arbitrary backend whose single-request operation has outcome `f`: gather the
fan-out members, then stack.  A member's error is surfaced as `Sum.inl` of
the very error value; the only error added by the layer itself is
`torch.stack`'s `RuntimeError` on an empty batch, as `Sum.inr`. -/
def batch_fanout {ε α : Type} (f : List Nat → Except ε α) (reqs : List (List Nat)) :
    Except (ε ⊕ String) (List α) :=
  match asyncio_gather (reqs.map f) with
  | Except.error e => Except.error (Sum.inl e)
  | Except.ok ts =>
      match torchStack ts with
      | Except.error m => Except.error (Sum.inr m)
      | Except.ok out => Except.ok out

/-- Replaying a history of calls on a `MockAsyncLM` instance, returning the
instance state afterwards; a raising call leaves the instance unchanged. -/
def runCalls : MockAsyncLM → List (List Nat) → MockAsyncLM
  | M, [] => M
  | M, ids :: rest =>
      match M.get_logprobs ids with
      | Except.error _ => runCalls M rest
      | Except.ok q => runCalls q.2 rest

/-- The pure tensor a successful mock call produces: it depends only on the
vocabulary size and the token ids. -/
def mockTensor (v : Nat) (ids : List Nat) : LogProbTensor :=
  ⟨(randN (mtInit (seedOf ids)) v).1⟩

/-- The outcome of a mock call, as a pure function of the vocabulary size and
the token ids: the tensor when the derived seed is in range, numpy's
`ValueError` otherwise. -/
def mockResult (v : Nat) (ids : List Nat) : Except String LogProbTensor :=
  if seedOf ids < 4294967296 then Except.ok (mockTensor v ids)
  else Except.error "Seed must be between 0 and 2**32 - 1"

/-- The concrete instance of the spec's scenarios: vocabulary size 50257,
generator freshly constructed. -/
def mock50257 : MockAsyncLM := MockAsyncLM.init 50257

/-- A concrete mock instance over a size-0 vocabulary, used to exhibit the
shared-generator mutation with no draws involved. -/
def mockShared : MockAsyncLM := { vocabSize := 0, rng := mtInit 42 }

/-- A concrete fallible single-request operation for the C7 witness: it
fails with `"boom"` on the empty sequence and returns the length otherwise. -/
def fBoom : List Nat → Except String Nat := fun ids =>
  if ids = [] then Except.error "boom" else Except.ok ids.length

/-- A successful call returns the pure tensor and the instance with the
generator advanced past the `vocabSize` draws from the freshly seeded
state. -/
lemma get_logprobs_ok (M : MockAsyncLM) (ids : List Nat)
    (h : seedOf ids < 4294967296) :
    M.get_logprobs ids =
      Except.ok (mockTensor M.vocabSize ids,
        { M with rng := (randN (mtInit (seedOf ids)) M.vocabSize).2 }) := by
  have hs : mtSeed (seedOf ids) = Except.ok (mtInit (seedOf ids)) := by
    rw [mtSeed, if_pos h]
  rw [MockAsyncLM.get_logprobs, hs]
  rfl

/-- A call whose derived seed is out of numpy's range raises `ValueError`. -/
lemma get_logprobs_error (M : MockAsyncLM) (ids : List Nat)
    (h : 4294967296 ≤ seedOf ids) :
    M.get_logprobs ids = Except.error "Seed must be between 0 and 2**32 - 1" := by
  have hs : mtSeed (seedOf ids) = Except.error "Seed must be between 0 and 2**32 - 1" := by
    rw [mtSeed, if_neg (by omega)]
  rw [MockAsyncLM.get_logprobs, hs]

/-- `get_logprobs_ok` read through the blocking entry point. -/
lemma next_sync_ok (M : MockAsyncLM) (ids : List Nat)
    (h : seedOf ids < 4294967296) :
    M.next_token_logprobs_sync ids =
      Except.ok (mockTensor M.vocabSize ids,
        { M with rng := (randN (mtInit (seedOf ids)) M.vocabSize).2 }) :=
  get_logprobs_ok M ids h

/-- `get_logprobs_ok` read through the non-blocking entry point. -/
lemma next_async_ok (M : MockAsyncLM) (ids : List Nat)
    (h : seedOf ids < 4294967296) :
    M.next_token_logprobs ids =
      Except.ok (mockTensor M.vocabSize ids,
        { M with rng := (randN (mtInit (seedOf ids)) M.vocabSize).2 }) :=
  get_logprobs_ok M ids h

/-- The outcome of a call (dropping the state) is the pure function
`mockResult` of the vocabulary size and the token ids. -/
lemma get_logprobs_result (M : MockAsyncLM) (ids : List Nat) :
    Except.map Prod.fst (M.get_logprobs ids) = mockResult M.vocabSize ids := by
  by_cases hs : seedOf ids < 4294967296
  · rw [get_logprobs_ok M ids hs, mockResult, if_pos hs]
    rfl
  · rw [get_logprobs_error M ids (by omega), mockResult, if_neg hs]
    rfl

/-- Replaying any call history preserves the vocabulary size. -/
lemma runCalls_vocab (h : List (List Nat)) : ∀ M : MockAsyncLM,
    (runCalls M h).vocabSize = M.vocabSize := by
  induction h with
  | nil => intro M; rfl
  | cons ids rest ih =>
      intro M
      simp only [runCalls]
      by_cases hs : seedOf ids < 4294967296
      · rw [get_logprobs_ok M ids hs]
        exact ih _
      · rw [get_logprobs_error M ids (by omega)]
        exact ih M

/-- `getD` either returns a list member or the default. -/
lemma getD_mem_or_default {α : Type} (d : α) :
    ∀ (l : List α) (i : Nat), l.getD i d ∈ l ∨ l.getD i d = d
  | [], _ => Or.inr rfl
  | a :: l, 0 => Or.inl (List.mem_cons_self a l)
  | a :: l, i + 1 =>
      match getD_mem_or_default d l i with
      | Or.inl h => Or.inl (List.mem_cons_of_mem a h)
      | Or.inr h => Or.inr h

/-- `getD` below the length commutes with `map` (any defaults). -/
lemma getD_map_of_lt {α β : Type} (f : α → β) :
    ∀ (l : List α) (i : Nat), i < l.length →
      ∀ (d : β) (e : α), (l.map f).getD i d = f (l.getD i e)
  | [], i, hi => absurd hi (by simp)
  | a :: l, 0, _ => fun _ _ => rfl
  | a :: l, i + 1, hi => fun d e =>
      getD_map_of_lt f l i (Nat.lt_of_succ_lt_succ hi) d e

/-- When every requested seed is in range, the sequential list comprehension
of the blocking batch succeeds and computes, at each position, the pure
single-call result for that position: re-seeding makes the threaded generator
state irrelevant to the outputs. -/
lemma runSyncList_ok (reqs : List (List Nat)) : ∀ M : MockAsyncLM,
    (∀ r ∈ reqs, seedOf r < 4294967296) →
    (runSyncList M reqs).1 =
      Except.ok (reqs.map (fun r => mockTensor M.vocabSize r)) := by
  induction reqs with
  | nil => intro M _; rfl
  | cons r rs ih =>
      intro M hall
      have hr : seedOf r < 4294967296 := hall r (List.mem_cons_self r rs)
      have hrest : ∀ x ∈ rs, seedOf x < 4294967296 :=
        fun x hx => hall x (List.mem_cons_of_mem _ hx)
      simp only [runSyncList, next_sync_ok M r hr]
      rw [ih _ hrest]
      rfl

/-- When every scheduled seed is in range, executing a schedule succeeds and
its table maps every scheduled index to the pure single-call result for that
index (independently of where in the schedule it ran), and unscheduled
indices to nothing. -/
lemma execSchedule_ok (reqs : List (List Nat))
    (hvalid : ∀ i : Nat, seedOf (reqs.getD i []) < 4294967296) :
    ∀ (order : List Nat) (M : MockAsyncLM),
      ∃ tbl, (execSchedule M reqs order).1 = Except.ok tbl ∧
        (∀ j, j ∉ order → tbl j = none) ∧
        (∀ j, j ∈ order →
          tbl j = some (mockTensor M.vocabSize (reqs.getD j []))) := by
  intro order
  induction order with
  | nil =>
      intro M
      exact ⟨fun _ => none, rfl, fun j _ => rfl,
        fun j hj => absurd hj (List.not_mem_nil j)⟩
  | cons i rest ih =>
      intro M
      obtain ⟨tbl, htbl, hnone, hsome⟩ :=
        ih ({ M with rng := (randN (mtInit (seedOf (reqs.getD i []))) M.vocabSize).2 })
      refine ⟨fun j =>
        match tbl j with
        | some t => some t
        | none => if j = i then some (mockTensor M.vocabSize (reqs.getD i []))
                  else none, ?_, ?_, ?_⟩
      · simp only [execSchedule, get_logprobs_ok M (reqs.getD i []) (hvalid i)]
        rw [htbl]
      · intro j hj
        have hj1 : j ∉ rest := fun hm => hj (List.mem_cons_of_mem _ hm)
        have hj2 : j ≠ i := fun e => hj (e ▸ List.mem_cons_self _ _)
        simp [hnone j hj1, hj2]
      · intro j hj
        by_cases hm : j ∈ rest
        · simp [hsome j hm]
        · have hji : j = i := by
            rcases List.mem_cons.mp hj with h | h
            · exact h
            · exact absurd h hm
          subst hji
          simp [hnone j hm]

/-- On the empty request every scheduled body runs on the empty sequence
(seed 0), so executing any schedule succeeds. -/
lemma execSchedule_nil_ok : ∀ (order : List Nat) (M : MockAsyncLM),
    ∃ tbl, (execSchedule M ([] : List (List Nat)) order).1 = Except.ok tbl := by
  intro order
  induction order with
  | nil => intro M; exact ⟨fun _ => none, rfl⟩
  | cons i rest ih =>
      intro M
      have hd : (([] : List (List Nat)).getD i []) = ([] : List Nat) := by
        cases i <;> rfl
      simp only [execSchedule, hd, get_logprobs_ok M ([] : List Nat) (by decide)]
      obtain ⟨tbl, htbl⟩ :=
        ih ({ M with rng := (randN (mtInit (seedOf ([] : List Nat))) M.vocabSize).2 })
      rw [htbl]
      exact ⟨_, rfl⟩

/-- Reading a list back through `getD` over `range` of its length. -/
lemma range_map_getD {α β : Type} (f : α → β) (d : α) :
    ∀ l : List α, (List.range l.length).map (fun i => f (l.getD i d)) = l.map f := by
  intro l
  induction l with
  | nil => rfl
  | cons a t ih =>
      rw [List.length_cons, List.range_succ_eq_map, List.map_cons, List.map_map,
        List.map_cons, ← ih]
      congr 1

/-- The enumerated weighted sum of the source comprehension, as an indexed
finite sum (with an arbitrary starting counter `k`). -/
lemma enumFrom_weighted_sum (ids : List Nat) : ∀ k : Nat,
    ((List.enumFrom k ids).map (fun p => (p.1 + 1) * p.2)).sum =
      ∑ i ∈ Finset.range ids.length, (k + i + 1) * ids.getD i 0 := by
  induction ids with
  | nil => intro k; simp
  | cons t ts ih =>
      intro k
      rw [List.enumFrom, List.map_cons, List.sum_cons, ih (k + 1),
        List.length_cons, Finset.sum_range_succ']
      have hc : ∀ i ∈ Finset.range ts.length,
          (k + (i + 1) + 1) * (t :: ts).getD (i + 1) 0 =
            (k + 1 + i + 1) * ts.getD i 0 := by
        intro i _
        rw [List.getD_cons_succ]
        ring_nf
      rw [Finset.sum_congr rfl hc, List.getD_cons_zero]
      ring

/-- Every Mersenne Twister word output is below `2^32`. -/
lemma genrand_lt (s : MTState) : (genrand s).1 < 4294967296 :=
  Nat.mod_lt _ (by norm_num)

/-- Each uniform draw is an exact rational in `[0, 1)`. -/
lemma randomSample_mem (s : MTState) :
    0 ≤ (randomSample s).1 ∧ (randomSample s).1 < 1 := by
  have h1 : (genrand s).1 < 4294967296 := genrand_lt s
  have h2 : (genrand (genrand s).2).1 < 4294967296 := genrand_lt _
  have ha : (genrand s).1 >>> 5 < 134217728 := by
    rw [Nat.shiftRight_eq_div_pow]
    omega
  have hb : (genrand (genrand s).2).1 >>> 6 < 67108864 := by
    rw [Nat.shiftRight_eq_div_pow]
    omega
  have hnum : ((genrand s).1 >>> 5) * 67108864 + ((genrand (genrand s).2).1 >>> 6)
      < 9007199254740992 := by omega
  have he : (randomSample s).1 =
      ((((genrand s).1 >>> 5) * 67108864 + ((genrand (genrand s).2).1 >>> 6) : Nat) : ℚ)
        / 9007199254740992 := rfl
  constructor
  · rw [he]
    positivity
  · rw [he, div_lt_one (by norm_num)]
    exact_mod_cast hnum

/-- `rand(n)` draws exactly `n` values, all in `[0, 1)`. -/
lemma randN_spec : ∀ (n : Nat) (s : MTState),
    (randN s n).1.length = n ∧ ∀ q ∈ (randN s n).1, 0 ≤ q ∧ q < 1 := by
  intro n
  induction n with
  | zero =>
      intro s
      exact ⟨rfl, fun q hq => absurd hq (List.not_mem_nil q)⟩
  | succ m ih =>
      intro s
      constructor
      · have he : (randN s (m + 1)).1 =
            (randomSample s).1 :: (randN (randomSample s).2 m).1 := rfl
        rw [he, List.length_cons, (ih _).1]
      · intro q hq
        have he : (randN s (m + 1)).1 =
            (randomSample s).1 :: (randN (randomSample s).2 m).1 := rfl
        rw [he] at hq
        rcases List.mem_cons.mp hq with h | h
        · exact h ▸ randomSample_mem s
        · exact (ih _).2 q h

/-- Summing a pointwise division distributes to the list sum. -/
lemma sum_map_div {α : Type} (l : List α) (g : α → ℝ) (c : ℝ) :
    (l.map (fun x => g x / c)).sum = (l.map g).sum / c := by
  induction l with
  | nil => simp
  | cons a t ih => simp [ih, add_div]

/-- The sum of exponentials of a non-empty list is positive. -/
lemma expSum_pos (l : List ℚ) (h : l ≠ []) :
    0 < (l.map (fun y : ℚ => Real.exp ((y : ℝ)))).sum := by
  cases l with
  | nil => exact absurd rfl h
  | cons a t =>
      have h2 : 0 ≤ (t.map (fun y : ℚ => Real.exp ((y : ℝ)))).sum := by
        apply List.sum_nonneg
        intro x hx
        rcases List.mem_map.mp hx with ⟨y, _, rfl⟩
        exact (Real.exp_pos _).le
      have h1 : 0 < Real.exp ((a : ℝ)) := Real.exp_pos _
      simp only [List.map_cons, List.sum_cons]
      linarith

/-- `log_softmax` preserves the length. -/
lemma log_softmax_length (l : List ℚ) : (log_softmax l).length = l.length := by
  rw [log_softmax, List.length_map]

/-- On a non-empty list, the exponentials of the `log_softmax` output sum to
exactly `1`. -/
lemma log_softmax_sum_exp (l : List ℚ) (h : l ≠ []) :
    ((log_softmax l).map Real.exp).sum = 1 := by
  have hS := expSum_pos l h
  have e1 : (log_softmax l).map Real.exp =
      l.map (fun x : ℚ => Real.exp ((x : ℝ)) /
        (l.map (fun y : ℚ => Real.exp ((y : ℝ)))).sum) := by
    rw [log_softmax, List.map_map]
    apply List.map_congr_left
    intro x _
    simp only [Function.comp]
    rw [Real.exp_sub, Real.exp_log hS]
  rw [e1, sum_map_div, div_self (ne_of_gt hS)]

/-- `get` below the length commutes with `map`. -/
lemma get_map_aux {α β : Type} (f : α → β) :
    ∀ (l : List α) (j : Nat) (hj : j < l.length) (hj2 : j < (l.map f).length),
      (l.map f).get ⟨j, hj2⟩ = f (l.get ⟨j, hj⟩)
  | _ :: _, 0, _, _ => rfl
  | _ :: l, j + 1, hj, hj2 =>
      get_map_aux f l j (Nat.lt_of_succ_lt_succ hj) (Nat.lt_of_succ_lt_succ hj2)

/-- If the first failing member (in task-creation order) raises `e`, the
gather propagates exactly `e`. -/
lemma gather_first_error {ε α : Type} :
    ∀ (rs : List (Except ε α)) (i : Nat) (hi : i < rs.length) (e : ε),
      rs.get ⟨i, hi⟩ = Except.error e →
      (∀ j (hj : j < i), isOkB (rs.get ⟨j, lt_trans hj hi⟩) = true) →
      asyncio_gather rs = Except.error e := by
  intro rs
  induction rs with
  | nil => intro i hi; exact absurd hi (Nat.not_lt_zero i)
  | cons x t ih =>
      intro i hi e he hok
      cases i with
      | zero =>
          have hx : x = Except.error e := he
          rw [hx]
          rfl
      | succ n =>
          have hx : isOkB x = true := hok 0 (Nat.succ_pos n)
          cases x with
          | error e0 => exact absurd hx (by simp [isOkB])
          | ok a =>
              have ht : asyncio_gather t = Except.error e :=
                ih n (Nat.lt_of_succ_lt_succ hi) e he
                  (fun j hj => hok (j + 1) (Nat.succ_lt_succ hj))
              rw [asyncio_gather, ht]
              rfl

/-- If every member succeeds, the gather returns the list of values, aligned
with the member list. -/
lemma gather_all_ok {ε α : Type} :
    ∀ rs : List (Except ε α),
      (∀ i (hi : i < rs.length), isOkB (rs.get ⟨i, hi⟩) = true) →
      ∃ out, asyncio_gather rs = Except.ok out ∧ rs = out.map Except.ok := by
  intro rs
  induction rs with
  | nil => intro _; exact ⟨[], rfl, rfl⟩
  | cons x t ih =>
      intro hok
      have hx := hok 0 (Nat.succ_pos t.length)
      cases x with
      | error e0 => exact absurd hx (by simp [isOkB])
      | ok a =>
          obtain ⟨out, h1, h2⟩ := ih (fun i hi => hok (i + 1) (Nat.succ_lt_succ hi))
          refine ⟨a :: out, ?_, ?_⟩
          · rw [asyncio_gather, h1]
            rfl
          · rw [List.map_cons, ← h2]

/-- Claim C1: on the mock backend, the blocking operation
`next_token_logprobs_sync` and the non-blocking operation
`next_token_logprobs` both invoke the same deterministic routine
`_get_logprobs`, hence return bit-identical outcomes (the same distribution,
the same updated state, and the same exception when the seed is out of
range), for every token id sequence. -/
theorem mock_async_sync_bitidentical (M : MockAsyncLM) (ids : List Nat) :
    M.next_token_logprobs ids = M.get_logprobs ids ∧
    M.next_token_logprobs_sync ids = M.get_logprobs ids ∧
    M.next_token_logprobs ids = M.next_token_logprobs_sync ids :=
  ⟨rfl, rfl, rfl⟩

/-- Claim C6: the mock backend is deterministic: calls with an identical
token id sequence performed after arbitrary (and arbitrarily different) call
histories yield bit-identical outcomes. -/
theorem mock_deterministic (M : MockAsyncLM) (h1 h2 : List (List Nat))
    (ids : List Nat) :
    Except.map Prod.fst ((runCalls M h1).get_logprobs ids) =
      Except.map Prod.fst ((runCalls M h2).get_logprobs ids) := by
  rw [get_logprobs_result, get_logprobs_result, runCalls_vocab, runCalls_vocab]

/-- Claim C8: the position-weighted seed checksum is not injective: the
distinct sequences `[2]` and `[0, 1]` share the seed `2`, and therefore the
mock backend returns the same output distribution for both. -/
theorem seed_checksum_not_injective :
    ([2] : List Nat) ≠ [0, 1] ∧
    seedOf [2] = seedOf [0, 1] ∧
    ∀ M : MockAsyncLM,
      Except.map Prod.fst (M.get_logprobs [2]) =
        Except.map Prod.fst (M.get_logprobs [0, 1]) := by
  have h2 : seedOf [2] = seedOf [0, 1] := by decide
  refine ⟨by decide, h2, fun M => ?_⟩
  rw [get_logprobs_result, get_logprobs_result]
  simp only [mockResult, mockTensor, h2]

/-- Counterexample to claim C9 as stated: the generator is not a per-call
instance; it is shared mutable state on the backend object, and a successful
call to `_get_logprobs` mutates it (here, re-seeding the freshly constructed
instance's generator from seed 42 to seed 14). -/
theorem rng_call_mutates_shared_state :
    mockShared.get_logprobs [1, 2, 3] =
      Except.ok (⟨[]⟩, { vocabSize := 0, rng := mtInit 14 }) ∧
    ({ vocabSize := 0, rng := mtInit 14 } : MockAsyncLM) ≠ mockShared :=
  ⟨rfl, by decide⟩

/-- Claim C9 (amended): the shared generator is re-seeded from the
input-derived integer at the start of every call; for derived seeds in
numpy's range the call succeeds and both the returned distribution and the
post-call generator state depend only on the call's own input and the
vocabulary size, and for larger derived seeds the call raises `ValueError`
before touching the generator — in either case the outcome is independent of
the generator state left behind by earlier calls. -/
theorem rng_reseed_call_order_independent (v : Nat) (s t : MTState)
    (ids : List Nat) :
    (MockAsyncLM.mk v s).get_logprobs ids =
      (MockAsyncLM.mk v t).get_logprobs ids ∧
    (seedOf ids < 4294967296 → ∃ tq : LogProbTensor,
      (MockAsyncLM.mk v s).get_logprobs ids =
        Except.ok (tq, MockAsyncLM.mk v (randN (mtInit (seedOf ids)) v).2)) ∧
    (4294967296 ≤ seedOf ids →
      (MockAsyncLM.mk v s).get_logprobs ids =
        Except.error "Seed must be between 0 and 2**32 - 1") := by
  refine ⟨?_,
    fun hs => ⟨mockTensor v ids, get_logprobs_ok (MockAsyncLM.mk v s) ids hs⟩,
    fun hs => get_logprobs_error (MockAsyncLM.mk v s) ids hs⟩
  by_cases hs : seedOf ids < 4294967296
  · rw [get_logprobs_ok (MockAsyncLM.mk v s) ids hs,
      get_logprobs_ok (MockAsyncLM.mk v t) ids hs]
  · rw [get_logprobs_error (MockAsyncLM.mk v s) ids (by omega),
      get_logprobs_error (MockAsyncLM.mk v t) ids (by omega)]

/-- Witness for the amended C9: at vocabulary size 3, the in-range seed 14
(`[1, 2, 3]`) succeeds with a post-call state determined by the input alone,
and the out-of-range seed `4294967296` raises numpy's `ValueError`. -/
theorem rng_reseed_call_order_independent_witness :
    (seedOf [1, 2, 3] < 4294967296 ∧ ∃ tq : LogProbTensor,
      (MockAsyncLM.mk 3 (mtInit 42)).get_logprobs [1, 2, 3] =
        Except.ok (tq, MockAsyncLM.mk 3 (randN (mtInit (seedOf [1, 2, 3])) 3).2)) ∧
    (4294967296 ≤ seedOf [4294967296] ∧
      (MockAsyncLM.mk 3 (mtInit 42)).get_logprobs [4294967296] =
        Except.error "Seed must be between 0 and 2**32 - 1") :=
  ⟨⟨by decide,
      (rng_reseed_call_order_independent 3 (mtInit 42) (mtInit 7) [1, 2, 3]).2.1
        (by decide)⟩,
   ⟨by decide,
      (rng_reseed_call_order_independent 3 (mtInit 42) (mtInit 7) [4294967296]).2.2
        (by decide)⟩⟩

/-- Claim C10: on the empty batch request, both batch operations raise the
`torch.stack` error instead of returning an empty result, for every instance
state and every scheduler order. -/
theorem empty_batch_raises (M : MockAsyncLM) (order : List Nat) :
    (M.batch_next_token_logprobs [] order).1 =
      Except.error "stack expects a non-empty TensorList" ∧
    (M.batch_next_token_logprobs_sync []).1 =
      Except.error "stack expects a non-empty TensorList" := by
  constructor
  · obtain ⟨tbl, htbl⟩ := execSchedule_nil_ok order M
    have e0 : (M.batch_next_token_logprobs [] order).1 =
        match (execSchedule M ([] : List (List Nat)) order).1 with
        | Except.error e => Except.error e
        | Except.ok tbl0 =>
            torchStack ((List.range (List.length ([] : List (List Nat)))).map
              (fun i => (tbl0 i).getD ⟨[]⟩)) := rfl
    rw [e0, htbl]
    rfl
  · rfl

/-- Counterexample to claim C2 as stated: the single-member batch
`[[4294967296]]` is non-empty, yet the blocking batch operation raises the
member's `ValueError` (its derived seed `4294967296` is out of numpy's
range) instead of returning a stacked result. -/
theorem batch_sync_raises_on_large_seed :
    ([[4294967296]] : List (List Nat)) ≠ [] ∧
    (mock50257.batch_next_token_logprobs_sync [[4294967296]]).1 =
      Except.error "Seed must be between 0 and 2**32 - 1" ∧
    ¬ ∃ out, (mock50257.batch_next_token_logprobs_sync [[4294967296]]).1 =
      Except.ok out := by
  have he : (mock50257.batch_next_token_logprobs_sync [[4294967296]]).1 =
      Except.error "Seed must be between 0 and 2**32 - 1" := rfl
  refine ⟨by decide, he, ?_⟩
  rintro ⟨out, hout⟩
  rw [he] at hout
  exact Except.noConfusion hout

/-- Claim C2 (amended): for every non-empty batch request in which every
element's derived seed is within numpy's range, the blocking batch operation
succeeds and returns exactly the index-aligned stack of the per-item blocking
results: the result list is the `map` of the pure per-call tensor over the
request, and row `i` is the (successful) single-call outcome for element
`i`. -/
theorem batch_sync_is_stack_of_singles (M : MockAsyncLM)
    (reqs : List (List Nat)) (h : reqs ≠ [])
    (hseed : ∀ r ∈ reqs, seedOf r < 4294967296) :
    ∃ out, (M.batch_next_token_logprobs_sync reqs).1 = Except.ok out ∧
      out = reqs.map (fun r => mockTensor M.vocabSize r) ∧
      out.length = reqs.length ∧
      ∀ i, i < reqs.length → ∀ d,
        Except.map Prod.fst (M.next_token_logprobs_sync (reqs.getD i [])) =
          Except.ok (out.getD i d) := by
  have hvalid : ∀ i : Nat, seedOf (reqs.getD i []) < 4294967296 := by
    intro i
    rcases getD_mem_or_default ([] : List Nat) reqs i with hm | hm
    · exact hseed _ hm
    · rw [hm]
      decide
  refine ⟨reqs.map (fun r => mockTensor M.vocabSize r), ?_, rfl,
    List.length_map reqs _, ?_⟩
  · have e0 : (M.batch_next_token_logprobs_sync reqs).1 =
        match (runSyncList M reqs).1 with
        | Except.error e => Except.error e
        | Except.ok ts => torchStack ts := rfl
    rw [e0, runSyncList_ok reqs M hseed]
    show torchStack (reqs.map (fun r => mockTensor M.vocabSize r)) = _
    have hne : (reqs.map (fun r => mockTensor M.vocabSize r)).isEmpty = false := by
      cases reqs with
      | nil => exact absurd rfl h
      | cons a l => rfl
    rw [torchStack, hne]
    rfl
  · intro i hi d
    rw [next_sync_ok M (reqs.getD i []) (hvalid i),
      getD_map_of_lt (fun r => mockTensor M.vocabSize r) reqs i hi d []]
    rfl

/-- Witness for the amended C2 at the spec's concrete batch scenario
`[[1, 2, 3], [4, 5]]` (seeds 14 and 14, both in range). -/
theorem batch_sync_is_stack_of_singles_witness :
    ([[1, 2, 3], [4, 5]] : List (List Nat)) ≠ [] ∧
    (∀ r ∈ ([[1, 2, 3], [4, 5]] : List (List Nat)), seedOf r < 4294967296) ∧
    ∃ out, (mock50257.batch_next_token_logprobs_sync [[1, 2, 3], [4, 5]]).1 =
        Except.ok out ∧
      out = [[1, 2, 3], [4, 5]].map (fun r => mockTensor mock50257.vocabSize r) ∧
      out.length = ([[1, 2, 3], [4, 5]] : List (List Nat)).length ∧
      ∀ i, i < ([[1, 2, 3], [4, 5]] : List (List Nat)).length → ∀ d,
        Except.map Prod.fst
            (mock50257.next_token_logprobs_sync ([[1, 2, 3], [4, 5]].getD i [])) =
          Except.ok (out.getD i d) :=
  ⟨by decide, by decide,
    batch_sync_is_stack_of_singles mock50257 [[1, 2, 3], [4, 5]]
      (by decide) (by decide)⟩

/-- Counterexample to claim C3 as stated: on the non-empty batch
`[[4294967296]]` the non-blocking batch operation (scheduler order `[0]`)
raises the member's `ValueError` instead of returning a result sequence. -/
theorem batch_async_raises_on_large_seed :
    ([[4294967296]] : List (List Nat)) ≠ [] ∧
    (mock50257.batch_next_token_logprobs [[4294967296]] [0]).1 =
      Except.error "Seed must be between 0 and 2**32 - 1" ∧
    ¬ ∃ out, (mock50257.batch_next_token_logprobs [[4294967296]] [0]).1 =
      Except.ok out := by
  have he : (mock50257.batch_next_token_logprobs [[4294967296]] [0]).1 =
      Except.error "Seed must be between 0 and 2**32 - 1" := rfl
  refine ⟨by decide, he, ?_⟩
  rintro ⟨out, hout⟩
  rw [he] at hout
  exact Except.noConfusion hout

/-- Claim C3 (amended): for every batch request in which every element's
derived seed is within numpy's range, and every scheduler order that runs
each fan-out coroutine, the non-blocking batch operation returns exactly what
the blocking batch operation returns — the result is reassembled by source
index, so on a non-empty request row `i` is the (successful) single
non-blocking call on element `i`, regardless of which member finished
first. -/
theorem batch_async_index_aligned_matches_sync (M : MockAsyncLM)
    (reqs : List (List Nat)) (order : List Nat)
    (hseed : ∀ r ∈ reqs, seedOf r < 4294967296)
    (hcov : ∀ i, i < reqs.length → i ∈ order) :
    (M.batch_next_token_logprobs reqs order).1 =
      (M.batch_next_token_logprobs_sync reqs).1 ∧
    (reqs ≠ [] → ∃ out,
      (M.batch_next_token_logprobs reqs order).1 = Except.ok out ∧
      out = reqs.map (fun r => mockTensor M.vocabSize r) ∧
      ∀ i, i < reqs.length → ∀ d,
        Except.map Prod.fst (M.next_token_logprobs (reqs.getD i [])) =
          Except.ok (out.getD i d)) := by
  have hvalid : ∀ i : Nat, seedOf (reqs.getD i []) < 4294967296 := by
    intro i
    rcases getD_mem_or_default ([] : List Nat) reqs i with hm | hm
    · exact hseed _ hm
    · rw [hm]
      decide
  obtain ⟨tbl, htbl, hnone, hsome⟩ := execSchedule_ok reqs hvalid order M
  have key : (List.range reqs.length).map (fun i => (tbl i).getD ⟨[]⟩) =
      reqs.map (fun r => mockTensor M.vocabSize r) := by
    have hpt : ∀ i ∈ List.range reqs.length,
        (tbl i).getD ⟨[]⟩ = mockTensor M.vocabSize (reqs.getD i []) := by
      intro i hi
      rw [hsome i (hcov i (List.mem_range.mp hi))]
      rfl
    rw [List.map_congr_left hpt]
    exact range_map_getD (fun r => mockTensor M.vocabSize r) [] reqs
  have easync : (M.batch_next_token_logprobs reqs order).1 =
      torchStack (reqs.map (fun r => mockTensor M.vocabSize r)) := by
    have e0 : (M.batch_next_token_logprobs reqs order).1 =
        match (execSchedule M reqs order).1 with
        | Except.error e => Except.error e
        | Except.ok tbl0 =>
            torchStack ((List.range reqs.length).map
              (fun i => (tbl0 i).getD ⟨[]⟩)) := rfl
    rw [e0, htbl]
    show torchStack ((List.range reqs.length).map (fun i => (tbl i).getD ⟨[]⟩)) = _
    rw [key]
  have esync : (M.batch_next_token_logprobs_sync reqs).1 =
      torchStack (reqs.map (fun r => mockTensor M.vocabSize r)) := by
    have e0 : (M.batch_next_token_logprobs_sync reqs).1 =
        match (runSyncList M reqs).1 with
        | Except.error e => Except.error e
        | Except.ok ts => torchStack ts := rfl
    rw [e0, runSyncList_ok reqs M hseed]
  refine ⟨by rw [easync, esync], fun h => ?_⟩
  refine ⟨reqs.map (fun r => mockTensor M.vocabSize r), ?_, rfl, ?_⟩
  · rw [easync]
    have hne : (reqs.map (fun r => mockTensor M.vocabSize r)).isEmpty = false := by
      cases reqs with
      | nil => exact absurd rfl h
      | cons a l => rfl
    rw [torchStack, hne]
    rfl
  · intro i hi d
    rw [next_async_ok M (reqs.getD i []) (hvalid i),
      getD_map_of_lt (fun r => mockTensor M.vocabSize r) reqs i hi d []]
    rfl

/-- Witness for the amended C3 at the spec's concrete batch scenario, with
the scheduler completing the second member first (order `[1, 0]`). -/
theorem batch_async_index_aligned_matches_sync_witness :
    (∀ r ∈ ([[1, 2, 3], [4, 5]] : List (List Nat)), seedOf r < 4294967296) ∧
    (∀ i, i < ([[1, 2, 3], [4, 5]] : List (List Nat)).length → i ∈ [1, 0]) ∧
    ((mock50257.batch_next_token_logprobs [[1, 2, 3], [4, 5]] [1, 0]).1 =
        (mock50257.batch_next_token_logprobs_sync [[1, 2, 3], [4, 5]]).1 ∧
      (([[1, 2, 3], [4, 5]] : List (List Nat)) ≠ [] → ∃ out,
        (mock50257.batch_next_token_logprobs [[1, 2, 3], [4, 5]] [1, 0]).1 =
          Except.ok out ∧
        out = [[1, 2, 3], [4, 5]].map (fun r => mockTensor mock50257.vocabSize r) ∧
        ∀ i, i < ([[1, 2, 3], [4, 5]] : List (List Nat)).length → ∀ d,
          Except.map Prod.fst
              (mock50257.next_token_logprobs ([[1, 2, 3], [4, 5]].getD i [])) =
            Except.ok (out.getD i d))) :=
  ⟨by decide, by decide,
    batch_async_index_aligned_matches_sync mock50257 [[1, 2, 3], [4, 5]] [1, 0]
      (by decide) (by decide)⟩

/-- The general seed-formula identity, the spec's concrete seed scenario, and
the exact shape of `_get_logprobs` as claimed by C4: seed with the
position-weighted sum (numpy's `ValueError` propagating for out-of-range
seeds), then draw `vocabSize` uniforms. -/
theorem mock_seed_derivation :
    (∀ ids : List Nat,
      seedOf ids = ∑ i ∈ Finset.range ids.length, (i + 1) * ids.getD i 0) ∧
    seedOf [1, 2, 3] = 14 ∧
    (∀ (M : MockAsyncLM) (ids : List Nat),
      M.get_logprobs ids =
        Except.map (fun s0 : MTState =>
          ((⟨(randN s0 M.vocabSize).1⟩ : LogProbTensor),
            { M with rng := (randN s0 M.vocabSize).2 }))
          (mtSeed (seedOf ids))) := by
  refine ⟨fun ids => ?_, by decide, fun M ids => ?_⟩
  · have h := enumFrom_weighted_sum ids 0
    simpa [seedOf, List.enum] using h
  · by_cases hs : seedOf ids < 4294967296
    · rw [get_logprobs_ok M ids hs, mtSeed, if_pos hs]
      rfl
    · rw [get_logprobs_error M ids (by omega), mtSeed, if_neg hs]
      rfl

/-- Counterexample to claim C5 as stated: on the token sequence
`[4294967296]` (derived seed `4294967296`, out of numpy's range) the mock
backend raises `ValueError` and returns no distribution at all. -/
theorem single_call_raises_on_large_seed :
    mock50257.next_token_logprobs_sync [4294967296] =
      Except.error "Seed must be between 0 and 2**32 - 1" ∧
    ¬ ∃ p, mock50257.next_token_logprobs_sync [4294967296] = Except.ok p := by
  have he : mock50257.next_token_logprobs_sync [4294967296] =
      Except.error "Seed must be between 0 and 2**32 - 1" := rfl
  refine ⟨he, ?_⟩
  rintro ⟨p, hp⟩
  rw [he] at hp
  exact Except.noConfusion hp

/-- Claim C5 (amended): for every token sequence whose derived seed is within
numpy's range (and a non-empty bound vocabulary), the mock backend returns a
distribution built from exactly `vocabSize` uniform draws in `[0, 1)`, whose
log-softmax has length `vocabSize` and exponentiates and sums to exactly
`1` — in particular within the spec's tolerance `1e-4`. -/
theorem mock_logprob_length_normalized (M : MockAsyncLM) (ids : List Nat)
    (hv : 0 < M.vocabSize) (hs : seedOf ids < 4294967296) :
    ∃ t : LogProbTensor,
      Except.map Prod.fst (M.next_token_logprobs_sync ids) = Except.ok t ∧
      t.logits.length = M.vocabSize ∧
      (∀ q ∈ t.logits, 0 ≤ q ∧ q < 1) ∧
      (log_softmax t.logits).length = M.vocabSize ∧
      ((log_softmax t.logits).map Real.exp).sum = 1 ∧
      |((log_softmax t.logits).map Real.exp).sum - 1| ≤ 1 / 10000 := by
  have hlen : (mockTensor M.vocabSize ids).logits.length = M.vocabSize :=
    (randN_spec M.vocabSize (mtInit (seedOf ids))).1
  have hne : (mockTensor M.vocabSize ids).logits ≠ [] := by
    intro e
    rw [e] at hlen
    simp only [List.length_nil] at hlen
    omega
  refine ⟨mockTensor M.vocabSize ids, ?_, hlen,
    (randN_spec M.vocabSize (mtInit (seedOf ids))).2, ?_, ?_, ?_⟩
  · rw [next_sync_ok M ids hs]
    rfl
  · rw [log_softmax_length, hlen]
  · exact log_softmax_sum_exp _ hne
  · rw [log_softmax_sum_exp _ hne]
    norm_num

/-- Witness for the amended C5 at the spec's concrete scenario: vocabulary
size 50257 and token ids `[1, 2, 3]` (seed 14). -/
theorem mock_logprob_length_normalized_witness :
    0 < mock50257.vocabSize ∧ seedOf [1, 2, 3] < 4294967296 ∧
    ∃ t : LogProbTensor,
      Except.map Prod.fst (mock50257.next_token_logprobs_sync [1, 2, 3]) =
        Except.ok t ∧
      t.logits.length = mock50257.vocabSize ∧
      (∀ q ∈ t.logits, 0 ≤ q ∧ q < 1) ∧
      (log_softmax t.logits).length = mock50257.vocabSize ∧
      ((log_softmax t.logits).map Real.exp).sum = 1 ∧
      |((log_softmax t.logits).map Real.exp).sum - 1| ≤ 1 / 10000 :=
  ⟨by decide, by decide,
    mock_logprob_length_normalized mock50257 [1, 2, 3] (by decide) (by decide)⟩

/-- Claim C7: if a fan-out member of the batch operation fails, the whole
batch fails and the first (in task order) failing member's error is surfaced
to the caller unchanged; if every member succeeds and the batch is non-empty,
the batch succeeds with the index-aligned result sequence. -/
theorem batch_failfast {ε α : Type} (f : List Nat → Except ε α)
    (reqs : List (List Nat)) :
    (∀ (i : Nat) (hi : i < reqs.length) (e : ε),
       f (reqs.get ⟨i, hi⟩) = Except.error e →
       (∀ j (hj : j < i), isOkB (f (reqs.get ⟨j, lt_trans hj hi⟩)) = true) →
       batch_fanout f reqs = Except.error (Sum.inl e)) ∧
    ((∀ (i : Nat) (hi : i < reqs.length), isOkB (f (reqs.get ⟨i, hi⟩)) = true) →
     reqs ≠ [] →
     ∃ out, batch_fanout f reqs = Except.ok out ∧
       reqs.map f = out.map Except.ok) := by
  have hlen : (reqs.map f).length = reqs.length := List.length_map reqs f
  constructor
  · intro i hi e he hok
    have hg : asyncio_gather (reqs.map f) = Except.error e := by
      apply gather_first_error (reqs.map f) i (by rw [hlen]; exact hi) e
      · rw [get_map_aux f reqs i hi]
        exact he
      · intro j hj
        rw [get_map_aux f reqs j (lt_trans hj hi)]
        exact hok j hj
    rw [batch_fanout, hg]
  · intro hok hne
    obtain ⟨out, h1, h2⟩ := gather_all_ok (reqs.map f) (by
      intro i hi
      rw [get_map_aux f reqs i (by rw [← hlen]; exact hi)]
      exact hok i (by rw [← hlen]; exact hi))
    cases out with
    | nil =>
        simp only [List.map_nil] at h2
        rw [List.map_eq_nil_iff] at h2
        exact absurd h2 hne
    | cons b l =>
        refine ⟨b :: l, ?_, h2⟩
        rw [batch_fanout, h1]
        rfl

/-- Witness for C7: with `fBoom`, the batch `[[1], [], [2]]` fails with the
member error `"boom"` surfaced unchanged, and the all-success batch
`[[3], [4, 5]]` returns the aligned results. -/
theorem batch_failfast_witness :
    batch_fanout fBoom [[1], [], [2]] = Except.error (Sum.inl "boom") ∧
    (∃ out, batch_fanout fBoom [[3], [4, 5]] = Except.ok out ∧
      [[3], [4, 5]].map fBoom = out.map Except.ok) := by
  constructor
  · exact (batch_failfast fBoom [[1], [], [2]]).1 1 (by decide) "boom" rfl (by decide)
  · exact (batch_failfast fBoom [[3], [4, 5]]).2 (by decide) (by decide)
